import Mathlib

/-!
Verification of the pty-driven command-capture harness of `pazi`
(`tests/src/harness/testshell/mod.rs`), shallowly embedded in Lean.

Strings are modelled as `List Char`, byte streams as `List Nat`.
`String::truncate n` keeps the first `n` characters (`List.take`),
`String::push` appends (`++ [c]`), `String::pop` removes the last
character when present (`List.dropLast`), and `Vec::join "\n"` is
`List.intercalate` with a single newline character.
-/

/-- Embeds the struct `VTEData`: the current editable line, its cursor
(`current_line_cursor`), and the scrollback of finalized lines. -/
structure VTEData where
  current_line_cursor : Nat
  current_line : List Char
  scrollback : List (List Char)
  deriving Repr, DecidableEq

/-- Embeds `VTEData::new`: empty line, cursor 0, empty scrollback. -/
def VTEData.new : VTEData :=
  { current_line_cursor := 0, current_line := [], scrollback := [] }

/-- Embeds the struct `VTEDataLen`, the cheap snapshot pair. -/
structure VTEDataLen where
  current_line : Nat
  scrollback : Nat
  deriving Repr, DecidableEq

/-- Embeds `VTEData::len`. -/
def VTEData.len (d : VTEData) : VTEDataLen :=
  { current_line := d.current_line.length, scrollback := d.scrollback.length }

/-- Embeds `vte::Perform::print` for `VTEData`: truncate the line at the
cursor, advance the cursor by one, push the character.  (Incrementing the
cursor before or after the push is indifferent: push appends at the end.) -/
def VTEData.print (d : VTEData) (c : Char) : VTEData :=
  { current_line_cursor := d.current_line_cursor + 1,
    current_line := d.current_line.take d.current_line_cursor ++ [c],
    scrollback := d.scrollback }

/-- Embeds `vte::Perform::execute` for `VTEData`, branching on the byte:
line feed pushes the current line onto scrollback and truncates the line to
length 0; carriage return resets the cursor; backspace, when the cursor is
positive, decrements it and pops the last character; tab is printed; every
other control byte is ignored (the Rust arm only logs). -/
def VTEData.execute (d : VTEData) (b : Nat) : VTEData :=
  if b = 10 then
    { d with scrollback := d.scrollback ++ [d.current_line], current_line := [] }
  else if b = 13 then
    { d with current_line_cursor := 0 }
  else if b = 8 then
    if d.current_line_cursor > 0 then
      { d with current_line_cursor := d.current_line_cursor - 1,
               current_line := d.current_line.dropLast }
    else d
  else if b = 9 then
    d.print (Char.ofNat 9)
  else d

/-- One step of `vte::Parser::advance` feeding `VTEData`, restricted to the
ground state the harness operates in: printable ASCII bytes (0x20–0x7e) go
to `print`, all other bytes go to `execute` (whose default arm ignores
them, matching the parser's treatment of unsupported sequences).  This is
the byte-classification step function the spec's §9 prescribes. -/
def VTEData.advance (d : VTEData) (b : Nat) : VTEData :=
  if 32 ≤ b ∧ b ≤ 126 then d.print (Char.ofNat b) else d.execute b

/-- Feeding a whole byte sequence from a given state. -/
def VTEData.feed (d : VTEData) (bs : List Nat) : VTEData :=
  bs.foldl VTEData.advance d

example : (VTEData.new.feed [104, 105]).current_line = ['h', 'i'] := by decide

example : (VTEData.new.feed [104, 105, 10]).scrollback = [['h', 'i']] := by
  decide

/-- The per-byte state of the reader thread spawned in `TestShell::new`:
the `VTEData`, the previous snapshot `last_len`, the counter
`last_prompt_scrollback_count` (an `i32` in the source, with `-1` the
"first prompt not seen yet" sentinel; modelled as `Int`), and the
accumulated `current_command_output`. -/
structure ShellState where
  data : VTEData
  last_len : VTEDataLen
  last_prompt_scrollback_count : Int
  current_command_output : List (List Char)
  deriving Repr, DecidableEq

/-- The reader-thread state right after its local variables are initialized
in `TestShell::new` (lines 142–151). -/
def ShellState.init : ShellState :=
  { data := VTEData.new,
    last_len := VTEData.new.len,
    last_prompt_scrollback_count := -1,
    current_command_output := [] }

/-- Embeds the body of the per-byte `for` loop of the reader thread in
`TestShell::new` (lines 160–197).  Returns the next state together with the
values sent on the command-output channel during this iteration (the Rust
`send` is modelled as emitting onto a list; `unwrap` on `scrollback.last()`
is modelled with `getLastD`, justified by the guard — see `C10`). -/
def shellStep (ps1 : List Char) (s : ShellState) (b : Nat) :
    ShellState × List (List Char) :=
  if s.last_len = (s.data.advance b).len then
    ({ s with data := s.data.advance b }, [])
  else if (s.data.advance b).current_line = ps1 ∧
      s.last_prompt_scrollback_count < ((s.data.advance b).scrollback.length : Int) then
    ({ data := s.data.advance b,
       last_len := (s.data.advance b).len,
       last_prompt_scrollback_count := ((s.data.advance b).scrollback.length : Int),
       current_command_output := [] },
     [List.intercalate [Char.ofNat 10] s.current_command_output])
  else if (s.data.advance b).scrollback.length > s.last_len.scrollback ∧
      s.last_prompt_scrollback_count ≠ -1 then
    ({ data := s.data.advance b,
       last_len := (s.data.advance b).len,
       last_prompt_scrollback_count := s.last_prompt_scrollback_count,
       current_command_output :=
         if ps1.isPrefixOf ((s.data.advance b).scrollback.getLastD []) then
           s.current_command_output
         else
           s.current_command_output ++ [(s.data.advance b).scrollback.getLastD []] },
     [])
  else
    ({ s with data := s.data.advance b, last_len := (s.data.advance b).len }, [])

/-- Concrete tracking-state fixture: the shell has seen its first prompt
(counter 0), one scrollback line, and two pending output lines. -/
def trackingState : ShellState :=
  { data := { current_line_cursor := 0, current_line := [], scrollback := [['x']] },
    last_len := { current_line := 0, scrollback := 1 },
    last_prompt_scrollback_count := 0,
    current_command_output := [['h', 'i']] }

/-- Concrete tracking-state fixture about to finish a line: the current
line holds `"hi"` with the cursor at its end. -/
def midLineState : ShellState :=
  { data := { current_line_cursor := 2, current_line := ['h', 'i'], scrollback := [] },
    last_len := { current_line := 2, scrollback := 0 },
    last_prompt_scrollback_count := 0,
    current_command_output := [] }

/-- Runs the reader loop over a byte sequence, collecting every value sent
on the command-output channel, in order. -/
def shellRun (ps1 : List Char) : ShellState → List Nat → ShellState × List (List Char)
  | s, [] => (s, [])
  | s, b :: bs =>
    let step := shellStep ps1 s b
    let rest := shellRun ps1 step.1 bs
    (rest.1, step.2 ++ rest.2)

/-- The byte sequence split on the line-feed byte, in order: the
accumulator holds the current maximal LF-free run (decoded to characters),
and a run is produced each time an LF closes it.  A trailing run not closed
by an LF contributes nothing; the claims only apply this to LF-terminated
sequences, where every run is closed. -/
def linesLFAux : List Char → List Nat → List (List Char)
  | _, [] => []
  | cur, b :: bs =>
    if b = 10 then cur :: linesLFAux [] bs
    else linesLFAux (cur ++ [Char.ofNat b]) bs

/-- The sequence split on the line-feed byte, starting from an empty run. -/
def linesLF (bs : List Nat) : List (List Char) :=
  linesLFAux [] bs

example :
    (shellRun ['P', '>', ' '] ShellState.init [80, 62, 32]).2 = [[]] := by
  decide

example :
    (shellRun ['P', '>', ' '] ShellState.init
      ((("P> echo hi".toList.map Char.toNat) ++ [13, 10]) ++
        (("hi".toList.map Char.toNat) ++ [13, 10]) ++
        ("P> ".toList.map Char.toNat))).2 = [[], ['h', 'i']] := by
  decide

lemma VTEData.print_scrollback (d : VTEData) (c : Char) :
    (d.print c).scrollback = d.scrollback := rfl

lemma VTEData.execute_scrollback_of_ne_ten (d : VTEData) (b : Nat)
    (h10 : b ≠ 10) : (d.execute b).scrollback = d.scrollback := by
  unfold VTEData.execute
  rw [if_neg h10]
  split
  · rfl
  · split
    · split <;> rfl
    · split <;> rfl

lemma VTEData.advance_ten (d : VTEData) :
    d.advance 10 =
      { d with scrollback := d.scrollback ++ [d.current_line],
               current_line := [] } := by
  simp [VTEData.advance, VTEData.execute]

lemma VTEData.print_cursor_le (d : VTEData) (c : Char)
    (h : d.current_line_cursor ≤ d.current_line.length) :
    (d.print c).current_line_cursor ≤ (d.print c).current_line.length := by
  simp only [VTEData.print, List.length_append, List.length_take,
    List.length_singleton]
  omega

/-- **C2.** (corrected)  The claim: from current line `"foobar"`, a
carriage return followed by typing `"baz"` yields `"bazbar"`.  On the code
it does not: `print` truncates the line at the cursor before pushing, so
the suffix `"bar"` is discarded.  This theorem exhibits the failure on the
claim's own concrete input (bytes of `"foobar"`, then CR, then `"baz"`). -/
theorem C2_counterexample :
    (VTEData.new.feed [102, 111, 111, 98, 97, 114, 13, 98, 97, 122]).current_line ≠
      "bazbar".toList := by
  decide

/-- **C2 (amended).**  From current line `"foobar"` (cursor at end),
a carriage return followed by typing `"baz"` yields current line `"baz"`:
each printed character truncates the line at the cursor, so the unwritten
suffix is discarded rather than preserved. -/
theorem C2_amended_line_is_baz :
    (VTEData.new.feed [102, 111, 111, 98, 97, 114, 13, 98, 97, 122]).current_line =
      "baz".toList := by
  decide

/-- **C3.** (corrected)  The claim says a line feed resets the cursor to 0.
It does not: after printing `'a'` (cursor 1), a line feed leaves the cursor
at 1. -/
theorem C3_counterexample :
    ¬ ((VTEData.new.advance 97).advance 10).current_line_cursor = 0 := by
  decide

/-- **C3 (amended).**  For every state, a line feed appends a copy of
`current_line` to `scrollback` and clears `current_line`, but leaves the
cursor unchanged (the `'\n'` arm of `execute` never touches
`current_line_cursor`). -/
theorem C3_amended_linefeed (d : VTEData) :
    d.advance 10 =
      { current_line_cursor := d.current_line_cursor,
        current_line := [],
        scrollback := d.scrollback ++ [d.current_line] } := by
  rw [VTEData.advance_ten]

/-- **C4.** (corrected)  The claimed invariant `cursor ≤ len(current_line)`
fails in a reachable state: after printing `'a'` and a line feed, the
cursor is 1 while the line is empty. -/
theorem C4_counterexample :
    ¬ (((VTEData.new.advance 97).advance 10).current_line_cursor ≤
        ((VTEData.new.advance 97).advance 10).current_line.length) := by
  decide

/-- **C4 (amended).**  `0 ≤ cursor` is inherent; `cursor ≤
len(current_line)` holds in the initial state and is preserved by every
byte other than line feed (printable, carriage return, backspace, tab,
ignored) — but a line feed clears the line without resetting the cursor,
so the bound is not preserved by line feeds and fails in reachable
states. -/
theorem C4_amended_preserved_except_linefeed :
    VTEData.new.current_line_cursor ≤ VTEData.new.current_line.length ∧
    ∀ (d : VTEData) (b : Nat), b ≠ 10 →
      d.current_line_cursor ≤ d.current_line.length →
      (d.advance b).current_line_cursor ≤ (d.advance b).current_line.length := by
  refine ⟨Nat.le_refl 0, ?_⟩
  intro d b hb h
  unfold VTEData.advance
  by_cases hp : 32 ≤ b ∧ b ≤ 126
  · rw [if_pos hp]
    exact d.print_cursor_le _ h
  · rw [if_neg hp]
    unfold VTEData.execute
    rw [if_neg hb]
    split
    · exact Nat.zero_le _
    · split
      · split
        · simp only [List.length_dropLast]
          omega
        · exact h
      · split
        · exact d.print_cursor_le _ h
        · exact h

/-- Witness for C4's amended theorem at byte `'a'` from the initial
state. -/
theorem C4_witness :
    (VTEData.new.advance 97).current_line_cursor ≤
      (VTEData.new.advance 97).current_line.length :=
  C4_amended_preserved_except_linefeed.2 VTEData.new 97 (by decide) (by decide)

/-- **C5.** (corrected)  The snapshot is not a sound change detector: from
the reachable state after `'a'` then CR (line `"a"`, cursor 0), printing
`'x'` leaves the snapshot pair unchanged while the content of
`current_line` changes from `"a"` to `"x"`. -/
theorem C5_counterexample :
    (((VTEData.new.advance 97).advance 13).advance 120).len =
        ((VTEData.new.advance 97).advance 13).len ∧
    (((VTEData.new.advance 97).advance 13).advance 120).current_line ≠
      ((VTEData.new.advance 97).advance 13).current_line := by
  constructor
  · decide
  · decide

/-- **C5 (amended).**  An unchanged snapshot does guarantee the scrollback
is identical (and, by definition of the snapshot, the line length is
unchanged), but not that the content of `current_line` is unchanged:
only scrollback changes are never missed. -/
theorem C5_amended_scrollback_sound (d : VTEData) (b : Nat)
    (h : (d.advance b).len = d.len) :
    (d.advance b).scrollback = d.scrollback := by
  by_cases h10 : b = 10
  · subst h10
    exfalso
    rw [VTEData.advance_ten] at h
    have h2 := congrArg VTEDataLen.scrollback h
    simp [VTEData.len] at h2
  · by_cases hp : 32 ≤ b ∧ b ≤ 126
    · unfold VTEData.advance
      rw [if_pos hp]
      exact d.print_scrollback _
    · unfold VTEData.advance
      rw [if_neg hp]
      exact d.execute_scrollback_of_ne_ten b h10

/-- Witness for C5's amended theorem: a carriage return from the initial
state leaves the snapshot unchanged, hence the scrollback. -/
theorem C5_witness :
    (VTEData.new.advance 13).scrollback = VTEData.new.scrollback :=
  C5_amended_scrollback_sound VTEData.new 13 (by decide)

/-- **C1.** (corrected)  The claim says the startup prompt match emits no
value on the command-output channel.  It does: feeding the bytes of
`"P> "` from the initial reader state, the first prompt match sends one
value (the join of the empty pending buffer). -/
theorem C1_counterexample :
    (shellRun ['P', '>', ' '] ShellState.init [80, 62, 32]).2 ≠ [] := by
  decide

/-- **C1 (amended).**  The first time the current line equals the prompt
marker (counter still `-1`, pending output still empty), the prompt branch
fires unconditionally and sends one value — the empty string — on the
command-output channel, and sets the counter to `len(scrollback)`; the
constructor consumes that initial value as the startup signal. -/
theorem C1_amended_startup_emits_empty (ps1 : List Char) (s : ShellState)
    (b : Nat)
    (hcount : s.last_prompt_scrollback_count = -1)
    (hout : s.current_command_output = [])
    (hsnap : ¬ s.last_len = (s.data.advance b).len)
    (hline : (s.data.advance b).current_line = ps1) :
    (shellStep ps1 s b).2 = [[]] ∧
    (shellStep ps1 s b).1.last_prompt_scrollback_count =
      ((s.data.advance b).scrollback.length : Int) := by
  have hlt : s.last_prompt_scrollback_count <
      ((s.data.advance b).scrollback.length : Int) := by
    rw [hcount]
    omega
  unfold shellStep
  rw [if_neg hsnap, if_pos ⟨hline, hlt⟩]
  constructor
  · rw [hout]
    rfl
  · rfl

/-- Witness for C1's amended theorem: prompt `"P"`, initial state, byte
`'P'`. -/
theorem C1_witness :
    (shellStep ['P'] ShellState.init 80).2 = [[]] ∧
    (shellStep ['P'] ShellState.init 80).1.last_prompt_scrollback_count =
      ((ShellState.init.data.advance 80).scrollback.length : Int) :=
  C1_amended_startup_emits_empty ['P'] ShellState.init 80 (by decide) rfl
    (by decide) (by decide)

/-- **C6.** (confirmed)  In tracking state `n` (counter `= n ≥ 0`) with the
current line exactly the prompt marker: if the snapshot changed and the
scrollback has grown past `n`, the step emits exactly the newline-joined
pending output, clears the pending buffer, and sets the counter to
`len(scrollback)`; and whenever `len(scrollback) ≤ n`, the step emits
nothing. -/
theorem C6_tracking_boundary (ps1 : List Char) (s : ShellState) (b : Nat)
    (n : Nat)
    (hcount : s.last_prompt_scrollback_count = (n : Int))
    (hline : (s.data.advance b).current_line = ps1) :
    ((¬ s.last_len = (s.data.advance b).len) →
      n < (s.data.advance b).scrollback.length →
      shellStep ps1 s b =
        ({ data := s.data.advance b,
           last_len := (s.data.advance b).len,
           last_prompt_scrollback_count :=
             ((s.data.advance b).scrollback.length : Int),
           current_command_output := [] },
         [List.intercalate [Char.ofNat 10] s.current_command_output])) ∧
    ((s.data.advance b).scrollback.length ≤ n → (shellStep ps1 s b).2 = []) := by
  constructor
  · intro hsnap hgrow
    have hlt : s.last_prompt_scrollback_count <
        ((s.data.advance b).scrollback.length : Int) := by
      rw [hcount]
      exact_mod_cast hgrow
    unfold shellStep
    rw [if_neg hsnap, if_pos ⟨hline, hlt⟩]
  · intro hle
    have hnlt : ¬ s.last_prompt_scrollback_count <
        ((s.data.advance b).scrollback.length : Int) := by
      rw [hcount]
      exact_mod_cast Nat.not_lt.mpr hle
    unfold shellStep
    by_cases hsnap : s.last_len = (s.data.advance b).len
    · rw [if_pos hsnap]
    · rw [if_neg hsnap, if_neg (fun hc => hnlt hc.2)]
      split
      · rfl
      · rfl

/-- Witness for C6: prompt `"P"`, tracking fixture, byte `'P'` completes a
boundary and emits the joined pending output. -/
theorem C6_witness :
    (shellStep ['P'] trackingState 80 =
      ({ data := trackingState.data.advance 80,
         last_len := (trackingState.data.advance 80).len,
         last_prompt_scrollback_count :=
           ((trackingState.data.advance 80).scrollback.length : Int),
         current_command_output := [] },
       [List.intercalate [Char.ofNat 10] trackingState.current_command_output])) :=
  (C6_tracking_boundary ['P'] trackingState 80 0 (by decide) (by decide)).1
    (by decide) (by decide)

/-- **C7.** (confirmed)  When the processed byte grows the scrollback, the
first prompt has been seen (counter `≠ -1`), and the prompt branch did not
fire, the step appends the newest scrollback line to the pending output
exactly when it does not start with the prompt marker, and emits nothing. -/
theorem C7_growth_appends (ps1 : List Char) (s : ShellState) (b : Nat)
    (hgrow : (s.data.advance b).scrollback.length > s.last_len.scrollback)
    (hseen : s.last_prompt_scrollback_count ≠ -1)
    (hnb : ¬ ((s.data.advance b).current_line = ps1 ∧
        s.last_prompt_scrollback_count <
          ((s.data.advance b).scrollback.length : Int))) :
    (shellStep ps1 s b).1.current_command_output =
      (if ps1.isPrefixOf ((s.data.advance b).scrollback.getLastD []) then
        s.current_command_output
      else
        s.current_command_output ++ [(s.data.advance b).scrollback.getLastD []]) ∧
    (shellStep ps1 s b).2 = [] := by
  have hsnap : ¬ s.last_len = (s.data.advance b).len := by
    intro he
    have h2 := congrArg VTEDataLen.scrollback he
    simp only [VTEData.len] at h2
    omega
  unfold shellStep
  rw [if_neg hsnap, if_neg hnb, if_pos ⟨hgrow, hseen⟩]
  exact ⟨rfl, rfl⟩

/-- Witness for C7: prompt `"P"`, mid-line fixture, a line feed finalizes
`"hi"`, which does not start with the prompt and is appended. -/
theorem C7_witness :
    (shellStep ['P'] midLineState 10).1.current_command_output =
      (if List.isPrefixOf ['P'] ((midLineState.data.advance 10).scrollback.getLastD []) then
        midLineState.current_command_output
      else
        midLineState.current_command_output ++
          [(midLineState.data.advance 10).scrollback.getLastD []]) ∧
    (shellStep ['P'] midLineState 10).2 = [] :=
  C7_growth_appends ['P'] midLineState 10 (by decide) (by decide) (by decide)

/-- **C10.** (confirmed)  In the scrollback-growth branch the `unwrap` on
`scrollback.last()` cannot panic: whenever the scrollback length exceeds
the previous snapshot's scrollback length, the scrollback is non-empty and
its last element is the value `shellStep` uses. -/
theorem C10_last_safe (s : ShellState) (b : Nat)
    (hgrow : (s.data.advance b).scrollback.length > s.last_len.scrollback) :
    (s.data.advance b).scrollback ≠ [] ∧
    (s.data.advance b).scrollback.getLast? =
      some ((s.data.advance b).scrollback.getLastD []) := by
  have hne : (s.data.advance b).scrollback ≠ [] := by
    intro he
    rw [he] at hgrow
    simp at hgrow
  refine ⟨hne, ?_⟩
  rw [List.getLastD_eq_getLast?, List.getLast?_eq_getLast_of_ne_nil hne]
  rfl

/-- Witness for C10: the initial state and a line feed grow the scrollback
to one line. -/
theorem C10_witness :
    (ShellState.init.data.advance 10).scrollback ≠ [] ∧
    (ShellState.init.data.advance 10).scrollback.getLast? =
      some ((ShellState.init.data.advance 10).scrollback.getLastD []) :=
  C10_last_safe ShellState.init 10 (by decide)

lemma linesLFAux_cons (cur : List Char) (b : Nat) (bs : List Nat) :
    linesLFAux cur (b :: bs) =
      if b = 10 then cur :: linesLFAux [] bs
      else linesLFAux (cur ++ [Char.ofNat b]) bs := rfl

lemma linesLFAux_cons_ne (cur : List Char) (b : Nat) (bs : List Nat)
    (h : b ≠ 10) :
    linesLFAux cur (b :: bs) = linesLFAux (cur ++ [Char.ofNat b]) bs := by
  rw [linesLFAux_cons, if_neg h]

lemma linesLFAux_cons_ten (cur : List Char) (bs : List Nat) :
    linesLFAux cur (10 :: bs) = cur :: linesLFAux [] bs := by
  rw [linesLFAux_cons, if_pos rfl]

lemma VTEData.feed_lines (bs : List Nat) : ∀ (d : VTEData),
    (∀ b ∈ bs, (32 ≤ b ∧ b ≤ 126) ∨ b = 10) →
    d.current_line.length ≤ d.current_line_cursor →
    (d.feed bs).scrollback = d.scrollback ++ linesLFAux d.current_line bs := by
  induction bs with
  | nil =>
    intro d _ _
    simp [VTEData.feed, linesLFAux]
  | cons b bs ih =>
    intro d h hc
    have hstep : d.feed (b :: bs) = (d.advance b).feed bs := rfl
    have hrest : ∀ x ∈ bs, (32 ≤ x ∧ x ≤ 126) ∨ x = 10 := fun x hx =>
      h x (List.mem_cons_of_mem _ hx)
    rcases h b (List.mem_cons_self b bs) with hp | h10
    · have hne : b ≠ 10 := by omega
      have htake : d.current_line.take d.current_line_cursor = d.current_line :=
        List.take_of_length_le hc
      have hadv : d.advance b = d.print (Char.ofNat b) := by
        unfold VTEData.advance
        rw [if_pos hp]
      have hc2 : (d.print (Char.ofNat b)).current_line.length ≤
          (d.print (Char.ofNat b)).current_line_cursor := by
        simp only [VTEData.print, List.length_append, List.length_take,
          List.length_singleton]
        omega
      rw [hstep, hadv, ih (d.print (Char.ofNat b)) hrest hc2]
      simp only [VTEData.print, htake]
      rw [linesLFAux_cons_ne _ _ _ hne]
    · subst h10
      have hc2 : (d.advance 10).current_line.length ≤
          (d.advance 10).current_line_cursor := by
        rw [VTEData.advance_ten]
        exact Nat.zero_le _
      rw [hstep, ih (d.advance 10) hrest hc2, VTEData.advance_ten,
        linesLFAux_cons_ten]
      simp

/-- **C8.** (confirmed)  For every byte sequence of printable ASCII and
line feeds, terminated by a line feed, feeding it byte-by-byte from the
initial state yields a scrollback equal to the sequence split on the
line-feed byte, in order. -/
theorem C8_printable_lines (l : List Nat)
    (h : ∀ b ∈ l, (32 ≤ b ∧ b ≤ 126) ∨ b = 10) :
    (VTEData.new.feed (l ++ [10])).scrollback = linesLF (l ++ [10]) := by
  have h2 : ∀ b ∈ l ++ [10], (32 ≤ b ∧ b ≤ 126) ∨ b = 10 := by
    intro b hb
    rcases List.mem_append.mp hb with hb | hb
    · exact h b hb
    · right
      simpa using hb
  have h3 := VTEData.feed_lines (l ++ [10]) VTEData.new h2 (Nat.le_refl 0)
  simpa [VTEData.new, linesLF] using h3

/-- Witness for C8 on the bytes of `"hi\nyo\n"`. -/
theorem C8_witness :
    (VTEData.new.feed ([104, 105, 10, 121, 111] ++ [10])).scrollback =
      linesLF ([104, 105, 10, 121, 111] ++ [10]) :=
  C8_printable_lines [104, 105, 10, 121, 111] (by decide)

lemma VTEData.print_edge (d : VTEData) (c : Char) :
    (d.print c).current_line.length ≤ (d.print c).current_line_cursor := by
  simp only [VTEData.print, List.length_append, List.length_take,
    List.length_singleton]
  omega

lemma VTEData.advance_edge (d : VTEData) (b : Nat)
    (h : d.current_line_cursor = 0 ∨
      d.current_line.length ≤ d.current_line_cursor) :
    (d.advance b).current_line_cursor = 0 ∨
      (d.advance b).current_line.length ≤ (d.advance b).current_line_cursor := by
  unfold VTEData.advance
  by_cases hp : 32 ≤ b ∧ b ≤ 126
  · rw [if_pos hp]
    exact Or.inr (d.print_edge _)
  · rw [if_neg hp]
    unfold VTEData.execute
    split
    · exact Or.inr (Nat.zero_le _)
    · split
      · exact Or.inl rfl
      · split
        · split
          · rename_i hcpos
            rcases h with h0 | hle
            · omega
            · refine Or.inr ?_
              dsimp only
              simp only [List.length_dropLast]
              omega
          · exact h
        · split
          · exact Or.inr (d.print_edge _)
          · exact h

lemma VTEData.feed_edge (bs : List Nat) : ∀ (d : VTEData),
    (d.current_line_cursor = 0 ∨
      d.current_line.length ≤ d.current_line_cursor) →
    ((d.feed bs).current_line_cursor = 0 ∨
      (d.feed bs).current_line.length ≤ (d.feed bs).current_line_cursor) := by
  induction bs with
  | nil =>
    intro d h
    exact h
  | cons b bs ih =>
    intro d h
    exact ih (d.advance b) (d.advance_edge b h)

/-- **C9.** (confirmed)  Every state reachable from the initial state has
its cursor at an edge of the line: `cursor = 0` or `cursor ≥
len(current_line)` — the cursor is never strictly inside the line — and
consequently a printable byte either appends its character to the end of
the current line or replaces the whole line by that single character. -/
theorem C9_reachable_edge (bs : List Nat) :
    ((VTEData.new.feed bs).current_line_cursor = 0 ∨
      (VTEData.new.feed bs).current_line.length ≤
        (VTEData.new.feed bs).current_line_cursor) ∧
    ∀ (b : Nat), 32 ≤ b → b ≤ 126 →
      (((VTEData.new.feed bs).advance b).current_line =
          (VTEData.new.feed bs).current_line ++ [Char.ofNat b] ∨
        ((VTEData.new.feed bs).advance b).current_line = [Char.ofNat b]) := by
  have hedge := VTEData.feed_edge bs VTEData.new (Or.inl rfl)
  refine ⟨hedge, ?_⟩
  intro b h1 h2
  have hadv : (VTEData.new.feed bs).advance b =
      (VTEData.new.feed bs).print (Char.ofNat b) := by
    unfold VTEData.advance
    rw [if_pos ⟨h1, h2⟩]
  rw [hadv]
  rcases hedge with h0 | hle
  · right
    simp [VTEData.print, h0]
  · left
    simp [VTEData.print, List.take_of_length_le hle]

/-- Witness for C9: after `"a"` then CR, printing `'x'` replaces the whole
line. -/
theorem C9_witness :
    ((VTEData.new.feed [97, 13]).advance 120).current_line =
        (VTEData.new.feed [97, 13]).current_line ++ [Char.ofNat 120] ∨
      ((VTEData.new.feed [97, 13]).advance 120).current_line =
        [Char.ofNat 120] :=
  (C9_reachable_edge [97, 13]).2 120 (by decide) (by decide)
